import Mathlib

/-!
Verification development for the `ask` command-line assistant (ai-ask).

A shallow embedding of `main.go` of the `ask` command-line assistant: the
composition of the question from arguments and piped input, the probing of
the host environment (`getOSInfo`, shell name), the construction of the
system prompt, and the control flow of `chat` around one HTTP exchange.

Modelling conventions

* A Go `string` (and `[]byte`) is a finite sequence of bytes, `List UInt8`.
  String constants of the source are written as Lean literals and turned
  into their UTF-8 bytes by `str`.
* Everything a run reads from its surroundings (environment variables,
  arguments, standard input, the OS-release file, the HTTP exchange, the
  JSON decoder, the markdown renderer) is a field of `World`.
* Everything a run does to its surroundings is an `Event`; a run of `chat`
  or `main` yields the list of its events in program order, together with
  the returned error or the exit status.
* Functions of the Go standard library are modelled from their documented
  behaviour on the arguments the program passes to them.
-/

namespace AiAsk

/-! ## Go strings -/

/-- A Go `string` or `[]byte`: a sequence of bytes. -/
abbrev GoString := List UInt8

/-- The bytes (UTF-8) of a string constant of the source. -/
def str (s : String) : GoString := s.toUTF8.data.toList

/-- Byte `'\n'`. -/
def NL : UInt8 := 10

/-- Byte `'\r'`. -/
def CR : UInt8 := 13

/-- Byte `'"'`. -/
def QUOTE : UInt8 := 34

/-- Byte `'/'`. -/
def SLASH : UInt8 := 47

/-- Byte `'{'`. -/
def LBRACE : UInt8 := 123

/-! ## Standard-library functions used by the program -/

/-- Go `strings.Join(elems, sep)`: empty for no element, the element itself
for one, otherwise the first element followed by `sep` and the next element
for every further element (the builder loop of the library). -/
def stringsJoin (elems : List GoString) (sep : GoString) : GoString :=
  match elems with
  | [] => []
  | [e] => e
  | e :: rest => rest.foldl (fun b s => b ++ sep ++ s) e

/-- Go `strings.HasPrefix(s, pre)`. -/
def startsWith (s pre : GoString) : Bool := pre.isPrefixOf s

/-- Go `strings.TrimPrefix(s, pre)`: `s` without the leading `pre` when it
starts with it, `s` otherwise. -/
def trimLeading (s pre : GoString) : GoString :=
  if startsWith s pre then s.drop pre.length else s

/-- Removal of every trailing byte equal to `c` (`trimRightByte`). -/
def trimRightByte (s : GoString) (c : UInt8) : GoString :=
  (s.reverse.dropWhile (fun b => b == c)).reverse

/-- Removal of every leading byte equal to `c` (`trimLeftByte`). -/
def trimLeftByte (s : GoString) (c : UInt8) : GoString :=
  s.dropWhile (fun b => b == c)

/-- Go `strings.Trim(s, cutset)` for a cutset of one ASCII byte `c`, the
only way the program calls it: all leading and all trailing `c` are
removed. -/
def stringsTrim (s : GoString) (c : UInt8) : GoString :=
  trimLeftByte (trimRightByte s c) c

/-- Go `strings.LastIndex(s, sep)` for a separator of one byte `c`: the
index of the last `c` in `s`, or `-1` when there is none. -/
def lastIndexByte (s : GoString) (c : UInt8) : Int :=
  match s with
  | [] => -1
  | b :: rest =>
    let r := lastIndexByte rest c
    if r ≠ -1 then r + 1 else if b == c then 0 else -1

/-- Scan of `strings.ReplaceAll(s, old, new)` for a non-empty `old`, from
left to right: `skip` counts the bytes of a matched `old` still to be passed
over; at a position where `old` starts, `new` is emitted and the match is
skipped, otherwise the byte is copied. -/
def replaceScan (old new : GoString) : GoString → Nat → GoString
  | [], _ => []
  | _ :: rest, skip + 1 => replaceScan old new rest skip
  | b :: rest, 0 =>
    if old.isPrefixOf (b :: rest) then new ++ replaceScan old new rest (old.length - 1)
    else b :: replaceScan old new rest 0

/-- Go `strings.ReplaceAll(s, old, new)` for a non-empty `old`: every
non-overlapping occurrence of `old`, found from left to right, is replaced
by `new`. -/
def stringsReplaceAll (s old new : GoString) : GoString :=
  replaceScan old new s 0

/-- Default `bufio.MaxScanTokenSize`: the scanner buffer never grows beyond
`64 * 1024` bytes. -/
def maxScanTokenSize : Nat := 64 * 1024

/-- Split of a byte sequence at every `'\n'`: the pieces between newlines,
the last piece being what follows the final newline (possibly empty). -/
def splitNewlines : GoString → List GoString
  | [] => [[]]
  | b :: rest =>
    if b = NL then [] :: splitNewlines rest
    else
      match splitNewlines rest with
      | [] => [[b]]
      | l :: ls => (b :: l) :: ls

/-- The `dropCR` of package `bufio`: one trailing `'\r'` is removed. -/
def dropCR (line : GoString) : GoString :=
  if line.getLast? = some CR then line.dropLast else line

/-- Tokens a `bufio.Scanner` with the default split function `ScanLines`
and the default buffer delivers for the pieces of the input: every piece
that ends at a newline is a token, the final piece is a token when it is not
empty, each token without its trailing `'\r'`. A piece of
`maxScanTokenSize` bytes or more fills the buffer before its end is seen:
`Scan` reports `ErrTooLong` and returns false, which ends the loop. -/
def scanTokens : List GoString → List GoString
  | [] => []
  | [l] => if l = [] then [] else if l.length < maxScanTokenSize then [dropCR l] else []
  | l :: ls => if l.length < maxScanTokenSize then dropCR l :: scanTokens ls else []

/-- Lines read by `for scanner.Scan() { line := scanner.Text() ... }` over a
file of the given content. -/
def scanLines (content : GoString) : List GoString :=
  scanTokens (splitNewlines content)

/-! ## Data model (`main.go`, lines 18-37) -/

/-- Go `Message`. -/
structure Message where
  role : GoString
  content : GoString
  deriving DecidableEq

/-- Go `ChatRequest`. -/
structure ChatRequest where
  model : GoString
  messages : List Message
  stream : Bool
  deriving DecidableEq

/-- Go `ChatChoice`; the field is `Message.Content`. -/
structure ChatChoice where
  content : GoString
  deriving DecidableEq

/-- Go `ChatResponse`. -/
structure ChatResponse where
  choices : List ChatChoice
  deriving DecidableEq

/-! ## Surroundings of a run -/

/-- The `*http.Request` built by `chat`: method, URL, the two headers it
sets, and the value that `json.Marshal` serialises into the body. -/
structure Request where
  method : GoString
  url : GoString
  contentType : GoString
  authorization : GoString
  body : ChatRequest
  deriving DecidableEq

/-- The `*http.Response` as `chat` uses it: `StatusCode`, `Status`, the bytes
`io.ReadAll(resp.Body)` returns and the error it returns, if any. -/
structure Response where
  statusCode : Int
  status : GoString
  body : GoString
  readErr : Option GoString
  deriving DecidableEq

/-- What a run reads from its surroundings. -/
structure World where
  /-- Variable `AI_ASK_BASE_URL`, `none` when unset. -/
  envBaseURL : Option GoString
  /-- Variable `AI_ASK_API_KEY`, `none` when unset. -/
  envAPIKey : Option GoString
  /-- Variable `AI_ASK_MODEL`, `none` when unset. -/
  envModel : Option GoString
  /-- Variable `SHELL`, `none` when unset. -/
  envShell : Option GoString
  /-- Go `os.Args`: program name, then the argument tokens. -/
  args : List GoString
  /-- Whether the mode of standard input has `os.ModeCharDevice` set. -/
  stdinCharDevice : Bool
  /-- The bytes `io.ReadAll(os.Stdin)` returns. -/
  stdin : GoString
  /-- Go `runtime.GOOS`. -/
  goos : GoString
  /-- Go `runtime.GOARCH`. -/
  goarch : GoString
  /-- Content of `/etc/os-release`, `none` when `os.Open` fails. -/
  osRelease : Option GoString
  /-- Go `term.IsTerminal(int(os.Stdout.Fd()))`. -/
  stdoutTerminal : Bool
  /-- Error of `http.NewRequest` for a method and URL, if any. -/
  newRequestErr : GoString → GoString → Option GoString
  /-- Go `client.Do(req)`: a response or a transport error. -/
  roundTrip : Request → Except GoString Response
  /-- Go `json.Unmarshal(body, &chatResp)`: the decoded value or an error. -/
  unmarshal : GoString → Except GoString ChatResponse
  /-- Go `glamour.NewTermRenderer(...)`: the `Render` function of the
  renderer, or an error. -/
  newTermRenderer : Except GoString (GoString → Except GoString GoString)

/-- Go `os.Getenv`: the value, or the empty string when unset. -/
def getenv (v : Option GoString) : GoString := v.getD []

/-- What a run does to its surroundings. -/
inductive Event where
  /-- Bytes written to standard output. -/
  | stdout (s : GoString)
  /-- Bytes written to standard error. -/
  | stderr (s : GoString)
  /-- Call of `chat` by `main`, with its four arguments. -/
  | chatCall (baseURL apiKey model question : GoString)
  /-- Request handed to `client.Do`. -/
  | httpDo (req : Request)
  /-- Call of `glamour.NewTermRenderer`. -/
  | newRenderer
  /-- Call of `renderer.Render` on a text. -/
  | render (content : GoString)
  deriving DecidableEq

/-- The `error` values `chat` returns, by origin. -/
inductive ChatError where
  /-- Error of `http.NewRequest`. -/
  | request (cause : GoString)
  /-- Error of `client.Do`. -/
  | transport (cause : GoString)
  /-- The `fmt.Errorf("API error: %s - %s", resp.Status, string(body))`. -/
  | api (status body : GoString)
  /-- Error of `io.ReadAll(resp.Body)`. -/
  | read (cause : GoString)
  /-- Error of `json.Unmarshal`. -/
  | decode (cause : GoString)
  deriving DecidableEq

/-- Go `err.Error()`, as printed by `%v`. -/
def ChatError.text : ChatError → GoString
  | .request c => c
  | .transport c => c
  | .api status body => str "API error: " ++ status ++ str " - " ++ body
  | .read c => c
  | .decode c => c

/-- Result of a call of `chat`: its events and the error it returns. -/
structure ChatRun where
  events : List Event
  err : Option ChatError
  deriving DecidableEq

/-- Result of a run of `main`: its events and the exit status. -/
structure Run where
  events : List Event
  exitCode : Nat
  deriving DecidableEq

/-! ## Input composition (`main`, lines 58-82) -/

/-- The question `main` builds from `hasPipe`, `os.Args` and the piped
bytes; `none` is the final `else` branch, which prints the usage text and
exits. -/
def composeQuestion (hasPipe : Bool) (osArgs : List GoString) (pipeData : GoString) :
    Option GoString :=
  let hasArgs := decide (osArgs.length ≥ 2)
  if hasPipe && hasArgs then
    let argQuestion := stringsJoin (osArgs.drop 1) (str " ")
    some (argQuestion ++ str "\n\n\x60\x60\x60\n" ++ pipeData ++ str "\x60\x60\x60")
  else if hasPipe then
    some pipeData
  else if hasArgs then
    some (stringsJoin (osArgs.drop 1) (str " "))
  else
    none

/-- The usage text of `main`, with the newline `Fprintln` appends. -/
def usageText : GoString :=
  str ("Usage:\n" ++
  "  ask \"question\"\n" ++
  "  echo \"question\" | ask\n" ++
  "  cat file | ask \"question\"\n")

/-! ## System prompt template (lines 90-120) -/

/-- Placeholder for the OS identity. -/
def tokenOS : GoString := str "\x7b\x7b.OS\x7d\x7d"

/-- Placeholder for the architecture. -/
def tokenArch : GoString := str "\x7b\x7b.Arch\x7d\x7d"

/-- Placeholder for the shell name. -/
def tokenShell : GoString := str "\x7b\x7b.Shell\x7d\x7d"

/-- The constant `systemPromptTemplate`. -/
def systemPromptTemplate : GoString :=
  str (
  "You are a highly experienced Software Engineer acting as a technical consultant. Your primary role is to help solve problems encountered during software development, debugging, and operations.\n" ++
  "\n" ++
  "## User Environment\n" ++
  "- Operating System: \x7b\x7b.OS\x7d\x7d\n" ++
  "- Architecture: \x7b\x7b.Arch\x7d\x7d\n" ++
  "- Shell: \x7b\x7b.Shell\x7d\x7d\n" ++
  "\n" ++
  "## Core Principles\n" ++
  "1. Solution-Oriented: Provide direct, actionable solutions. Get to the point immediately.\n" ++
  "2. Concise: Assume the user is technically proficient. Avoid lengthy explanations of basic concepts. Be terse.\n" ++
  "3. Practical: Prioritize commands, configuration snippets, and step-by-step fixes that can be executed immediately.\n" ++
  "\n" ++
  "## Command Generation Rules (CRITICAL)\n" ++
  "The user is on \x7b\x7b.OS\x7d\x7d/\x7b\x7b.Arch\x7d\x7d with \x7b\x7b.Shell\x7d\x7d. You MUST:\n" ++
  "- ONLY provide solutions for \x7b\x7b.OS\x7d\x7d. Do NOT list installation methods for other operating systems.\n" ++
  "- Use \x7b\x7b.Shell\x7d\x7d syntax (e.g., variable expansion, conditionals, loops).\n" ++
  "- Use \x7b\x7b.OS\x7d\x7d-specific commands, paths, and package managers.\n" ++
  "- If a tool has multiple installation methods on \x7b\x7b.OS\x7d\x7d, pick the most common/recommended one unless asked otherwise.\n" ++
  "\n" ++
  "## Response Format\n" ++
  "- For commands: provide the exact command(s) ready to be copied and run in \x7b\x7b.Shell\x7d\x7d.\n" ++
  "- For errors: briefly state the likely cause and provide the fix.\n" ++
  "- For complex issues: use a numbered list of steps.\n" ++
  "- Wrap all commands and code in markdown code blocks with appropriate language tags.\n" ++
  "\n" ++
  "## Critical Instructions\n" ++
  "- Do NOT be verbose.\n" ++
  "- Do NOT apologize or include pleasantries.\n" ++
  "- Do NOT give unnecessary warnings or lectures.\n" ++
  "- Do NOT provide alternatives for other OS/shells unless explicitly asked.\n" ++
  "- If you don\x27t know, say so briefly.")

/-! ## Environment probing -/

/-- State of the three variables `prettyName, name, version` of
`getOSInfo`. -/
structure OSRelease where
  prettyName : GoString
  name : GoString
  version : GoString
  deriving DecidableEq

/-- One iteration of the scanning loop of `getOSInfo` (lines 137-144). -/
def osReleaseStep (s : OSRelease) (line : GoString) : OSRelease :=
  if startsWith line (str "PRETTY_NAME=") then
    { s with prettyName := stringsTrim (trimLeading line (str "PRETTY_NAME=")) QUOTE }
  else if startsWith line (str "NAME=") then
    { s with name := stringsTrim (trimLeading line (str "NAME=")) QUOTE }
  else if startsWith line (str "VERSION=") then
    { s with version := stringsTrim (trimLeading line (str "VERSION=")) QUOTE }
  else s

/-- The final selection of `getOSInfo` (lines 147-156). -/
def osReleaseResult (s : OSRelease) : GoString :=
  if s.prettyName ≠ [] then s.prettyName
  else if s.name ≠ [] ∧ s.version ≠ [] then s.name ++ str " " ++ s.version
  else if s.name ≠ [] then s.name
  else str "linux"

/-- The function `getOSInfo`, for the value of `runtime.GOOS` and the
content of `/etc/os-release` (`none` when it cannot be opened). -/
def getOSInfo (goos : GoString) (osRelease : Option GoString) : GoString :=
  if goos ≠ str "linux" then goos
  else
    match osRelease with
    | none => str "linux"
    | some content =>
      osReleaseResult ((scanLines content).foldl osReleaseStep ⟨[], [], []⟩)

/-- The shell name computed at the start of `chat` (lines 160-167) from the
value of `os.Getenv("SHELL")`. -/
def shellName (shellEnv : GoString) : GoString :=
  let shell := if shellEnv = [] then str "sh" else shellEnv
  let idx := lastIndexByte shell SLASH
  if idx ≠ -1 then shell.drop (idx + 1).toNat else shell

/-- The system prompt of `chat` (lines 172-174): three successive
`strings.ReplaceAll` over the template. -/
def buildSystemPrompt (osInfo arch shell : GoString) : GoString :=
  let systemPrompt := stringsReplaceAll systemPromptTemplate tokenOS osInfo
  let systemPrompt := stringsReplaceAll systemPrompt tokenArch arch
  stringsReplaceAll systemPrompt tokenShell shell

/-! ## The chat exchange (`chat`, lines 159-258) -/

/-- The request `chat` builds (lines 181-203): a POST to
`baseURL + "/chat/completions"` with the two headers, whose body is the
`ChatRequest` of the system prompt and the question, `Stream` false. -/
def chatRequestOf (w : World) (baseURL apiKey model question : GoString) : Request :=
  let shell := shellName (getenv w.envShell)
  let osInfo := getOSInfo w.goos w.osRelease
  let systemPrompt := buildSystemPrompt osInfo w.goarch shell
  let messages : List Message :=
    [⟨str "system", systemPrompt⟩, ⟨str "user", question⟩]
  let reqBody : ChatRequest := ⟨model, messages, false⟩
  ⟨str "POST", baseURL ++ str "/chat/completions", str "application/json",
    str "Bearer " ++ apiKey, reqBody⟩

/-- The progress indicator (lines 176-179): `Thinking...` is printed when
standard output is a terminal. -/
def thinkingEvents (isTerminal : Bool) : List Event :=
  if isTerminal then [.stdout (str "Thinking...")] else []

/-- The erase sequence `"\r\033[K"` of line 239. -/
def eraseSequence : GoString := str "\r\x1b[K"

/-- The function `chat`. The request body is kept as the `ChatRequest`
value; `json.Marshal` cannot fail on a value of this type, so its error
branch is not reachable. -/
def chat (w : World) (baseURL apiKey model question : GoString) : ChatRun :=
  let isTerminal := w.stdoutTerminal
  let e0 := thinkingEvents isTerminal
  match w.newRequestErr (str "POST") (baseURL ++ str "/chat/completions") with
  | some err => ⟨e0, some (.request err)⟩
  | none =>
    let req := chatRequestOf w baseURL apiKey model question
    let e1 := e0 ++ [.httpDo req]
    match w.roundTrip req with
    | .error err => ⟨e1, some (.transport err)⟩
    | .ok resp =>
      if resp.statusCode ≠ 200 then ⟨e1, some (.api resp.status resp.body)⟩
      else
        match resp.readErr with
        | some err => ⟨e1, some (.read err)⟩
        | none =>
          match w.unmarshal resp.body with
          | .error err => ⟨e1, some (.decode err)⟩
          | .ok chatResp =>
            match chatResp.choices with
            | [] => ⟨e1 ++ [.stdout (str "No response\n")], none⟩
            | choice :: _ =>
              let content := choice.content
              if !isTerminal then ⟨e1 ++ [.stdout (content ++ str "\n")], none⟩
              else
                let e2 := e1 ++ [.stdout eraseSequence, .newRenderer]
                match w.newTermRenderer with
                | .error _ => ⟨e2 ++ [.stdout (content ++ str "\n")], none⟩
                | .ok render =>
                  match render content with
                  | .error _ => ⟨e2 ++ [.render content, .stdout (content ++ str "\n")], none⟩
                  | .ok out => ⟨e2 ++ [.render content, .stdout (out ++ str "\n")], none⟩

/-! ## The program (`main`, lines 39-88) -/

/-- The function `main`. -/
def main (w : World) : Run :=
  let baseURL := getenv w.envBaseURL
  if baseURL = [] then ⟨[.stderr (str "Error: AI_ASK_BASE_URL is not set\n")], 1⟩
  else
    let apiKey := getenv w.envAPIKey
    if apiKey = [] then ⟨[.stderr (str "Error: AI_ASK_API_KEY is not set\n")], 1⟩
    else
      let model := getenv w.envModel
      if model = [] then ⟨[.stderr (str "Error: AI_ASK_MODEL is not set\n")], 1⟩
      else
        let hasPipe := !w.stdinCharDevice
        match composeQuestion hasPipe w.args w.stdin with
        | none => ⟨[.stderr usageText], 1⟩
        | some question =>
          let r := chat w baseURL apiKey model question
          match r.err with
          | some err =>
            ⟨.chatCall baseURL apiKey model question :: r.events ++
              [.stderr (str "Error: " ++ err.text ++ str "\n")], 1⟩
          | none => ⟨.chatCall baseURL apiKey model question :: r.events, 0⟩

/-! ## Sample surroundings -/

/-- A run on a terminal, no pipe, no argument: `ask` typed alone. The
server, if asked, answers 200 with one choice. -/
def bareWorld : World where
  envBaseURL := some (str "http://localhost:8080/v1")
  envAPIKey := some (str "key")
  envModel := some (str "m")
  envShell := some (str "/bin/zsh")
  args := [str "ask"]
  stdinCharDevice := true
  stdin := []
  goos := str "linux"
  goarch := str "amd64"
  osRelease := some (str "PRETTY_NAME=\"Test OS 1.0\"\nNAME=\"Test\"\nVERSION=\"1.0\"\n")
  stdoutTerminal := true
  newRequestErr := fun _ _ => none
  roundTrip := fun _ => .ok ⟨200, str "200 OK", str "body", none⟩
  unmarshal := fun _ => .ok ⟨[⟨str "hello"⟩]⟩
  newTermRenderer := .ok (fun s => .ok s)

/-- The run `ask hi` against a server that answers `201 Created`. -/
def createdWorld : World :=
  { bareWorld with
    args := [str "ask", str "hi"]
    roundTrip := fun _ => .ok ⟨201, str "201 Created", str "\x7b\"choices\":[]\x7d", none⟩ }

/-- The run `ask hi` against a server that answers 429 with the body
`rate limited`. -/
def rateLimitedWorld : World :=
  { bareWorld with
    args := [str "ask", str "hi"]
    roundTrip := fun _ => .ok ⟨429, str "429 Too Many Requests", str "rate limited", none⟩ }

/-- The run `ask hi` on a terminal against a server that answers 200 with
`choices: []`. -/
def noChoiceWorld : World :=
  { bareWorld with
    args := [str "ask", str "hi"]
    roundTrip := fun _ => .ok ⟨200, str "200 OK", str "\x7b\"choices\":[]\x7d", none⟩
    unmarshal := fun _ => .ok ⟨[]⟩ }

/-- The run `ask hi` with standard output redirected, against a server that
answers 200 with the single choice `hello`. -/
def redirectedWorld : World :=
  { bareWorld with
    args := [str "ask", str "hi"]
    stdoutTerminal := false }

/-- Whether an HTTP status code is a 2xx success status. -/
def isSuccess2xx (code : Int) : Bool := decide (200 ≤ code) && decide (code ≤ 299)

/-! ## Observations on event lists -/

/-- Everything written to standard error, in order. -/
def stderrText : List Event → GoString
  | [] => []
  | e :: rest => (match e with | .stderr s => s | _ => []) ++ stderrText rest

/-- The writes to standard output, in order. -/
def stdoutWrites : List Event → List GoString
  | [] => []
  | e :: rest => (match e with | .stdout s => [s] | _ => []) ++ stdoutWrites rest

/-- Number of calls of `chat`. -/
def chatCalls : List Event → Nat
  | [] => 0
  | e :: rest => (match e with | .chatCall _ _ _ _ => 1 | _ => 0) + chatCalls rest

/-- Number of requests handed to the HTTP client. -/
def httpRequests : List Event → Nat
  | [] => 0
  | e :: rest => (match e with | .httpDo _ => 1 | _ => 0) + httpRequests rest

/-- Number of uses of the renderer (construction or `Render`). -/
def rendererUses : List Event → Nat
  | [] => 0
  | e :: rest =>
    (match e with | .newRenderer => 1 | .render _ => 1 | _ => 0) + rendererUses rest

/-! ## Reference definitions taken from the specification -/

/-- The question of the specification for argument tokens `A` and piped
bytes `P`: with a pipe and arguments, the arguments joined by single spaces,
a blank line, and `P` inside a fence whose closing marker follows `P`
directly; with a pipe only, `P`; with arguments only, the joined
arguments. -/
def referenceQuestion (hasPipe : Bool) (A : List GoString) (P : GoString) : GoString :=
  if hasPipe then
    if A ≠ [] then
      (str " ").intercalate A ++ str "\n\n\x60\x60\x60\n" ++ P ++ str "\x60\x60\x60"
    else P
  else (str " ").intercalate A

/-- Whether a line starts with one of the three exact prefixes
`PRETTY_NAME=`, `NAME=`, `VERSION=`. -/
def isKeyLine (l : GoString) : Bool :=
  startsWith l (str "PRETTY_NAME=") || startsWith l (str "NAME=") ||
    startsWith l (str "VERSION=")

/-- The file content with every line deleted that starts with none of the
three prefixes: the remaining lines, separated by newlines. -/
def deleteOtherLines (content : GoString) : GoString :=
  [NL].intercalate ((splitNewlines content).filter isKeyLine)

/-- The text lines of a file content: what stands between newlines, without
a trailing carriage return. -/
def textLines (content : GoString) : List GoString :=
  (splitNewlines content).map dropCR

/-- The value of the key whose lines start with `pre` (the key and `=`): the
rest of the line with the surrounding quotes stripped; `none` when no line
starts with `pre`. When several lines do, the last one counts. -/
def lastValue (pre : GoString) : List GoString → Option GoString
  | [] => none
  | l :: ls =>
    match lastValue pre ls with
    | some v => some v
    | none => if startsWith l pre then some (stringsTrim (trimLeading l pre) QUOTE) else none

/-- The resolution order as the claim words it, for the values `p`, `n`, `v`
of `PRETTY_NAME`, `NAME`, `VERSION` (`none` when the key is not present):
`p` if present and non-empty; otherwise `n`, a space and `v` if `NAME` and
`VERSION` are both present; otherwise `n` if `NAME` is present; otherwise
`linux`. -/
def claimedOSIdentity (p n v : Option GoString) : GoString :=
  match p.filter (fun x => x ≠ []) with
  | some pv => pv
  | none =>
    match n, v with
    | some nv, some vv => nv ++ str " " ++ vv
    | some nv, none => nv
    | none, _ => str "linux"

/-- The resolution order with "present" read as "present and non-empty" for
all three keys. -/
def resolvedOSIdentity (p n v : Option GoString) : GoString :=
  claimedOSIdentity p (n.filter (fun x => x ≠ [])) (v.filter (fun x => x ≠ []))

/-- A file of one line of 65536 bytes `x`, followed by the line
`NAME="A"`. -/
def longLineFile : GoString :=
  (120 :: List.replicate 65535 120) ++ str "\nNAME=\"A\"\n"

/-- A file whose `VERSION` line is present with an empty value. -/
def emptyVersionFile : GoString := str "NAME=\"Ubuntu\"\nVERSION=\"\"\n"

/-- A file with two `PRETTY_NAME` lines. -/
def twoPrettyFile : GoString :=
  str "PRETTY_NAME=\"Test OS 1.0\"\nPRETTY_NAME=\"Other\"\n"

/-- A file with one `PRETTY_NAME` line between a `NAME` and a `VERSION`
line. -/
def prettyFile : GoString :=
  str "NAME=\"x\"\nPRETTY_NAME=\"Test OS 1.0\"\nVERSION=\"2\"\nID=test\n"

/-- The line `PRETTY_NAME="v"` for a value `v`. -/
def prettyLine (v : GoString) : GoString :=
  str "PRETTY_NAME=" ++ QUOTE :: v ++ [QUOTE]

/-- A segment of the system prompt template: literal text, or one of the
three placeholders. -/
inductive Part where
  | text (t : GoString)
  | os
  | arch
  | shell
  deriving DecidableEq

/-- The bytes a segment stands for when the placeholders stand for `o`, `a`
and `s`. -/
def fill (o a s : GoString) : Part → GoString
  | .text t => t
  | .os => o
  | .arch => a
  | .shell => s

/-- Concatenation of the segments under an assignment of bytes. -/
def renderParts (f : Part → GoString) : List Part → GoString
  | [] => []
  | p :: ps => f p ++ renderParts f ps

/-- Whether a segment is a placeholder or a text without `{`. -/
def braceFree : Part → Bool
  | .text t => !t.contains LBRACE
  | _ => true

/-- The template cut at its placeholders: the text between placeholders and
the placeholders, in order. -/
def templateParts : List Part := [
  .text (str "You are a highly experienced Software Engineer acting as a technical consultant. Your primary role is to help solve problems encountered during software development, debugging, and operations.\n\n## User Environment\n- Operating System: "),
  .os,
  .text (str "\n- Architecture: "),
  .arch,
  .text (str "\n- Shell: "),
  .shell,
  .text (str "\n\n## Core Principles\n1. Solution-Oriented: Provide direct, actionable solutions. Get to the point immediately.\n2. Concise: Assume the user is technically proficient. Avoid lengthy explanations of basic concepts. Be terse.\n3. Practical: Prioritize commands, configuration snippets, and step-by-step fixes that can be executed immediately.\n\n## Command Generation Rules (CRITICAL)\nThe user is on "),
  .os,
  .text (str "/"),
  .arch,
  .text (str " with "),
  .shell,
  .text (str ". You MUST:\n- ONLY provide solutions for "),
  .os,
  .text (str ". Do NOT list installation methods for other operating systems.\n- Use "),
  .shell,
  .text (str " syntax (e.g., variable expansion, conditionals, loops).\n- Use "),
  .os,
  .text (str "-specific commands, paths, and package managers.\n- If a tool has multiple installation methods on "),
  .os,
  .text (str ", pick the most common/recommended one unless asked otherwise.\n\n## Response Format\n- For commands: provide the exact command(s) ready to be copied and run in "),
  .shell,
  .text (str ".\n- For errors: briefly state the likely cause and provide the fix.\n- For complex issues: use a numbered list of steps.\n- Wrap all commands and code in markdown code blocks with appropriate language tags.\n\n## Critical Instructions\n- Do NOT be verbose.\n- Do NOT apologize or include pleasantries.\n- Do NOT give unnecessary warnings or lectures.\n- Do NOT provide alternatives for other OS/shells unless explicitly asked.\n- If you don\x27t know, say so briefly.")]

/-- The system prompt the claim describes: the template with each
placeholder position carrying the corresponding value. -/
def expectedPrompt (os arch shell : GoString) : GoString :=
  renderParts (fill os arch shell) templateParts

/-! ## Lemmas: library functions -/

theorem foldl_join_eq (sep : GoString) (rest : List GoString) (e : GoString) :
    rest.foldl (fun b s => b ++ sep ++ s) e = sep.intercalate (e :: rest) := by
  induction rest generalizing e with
  | nil => simp [List.intercalate]
  | cons r rs ih =>
    rw [List.foldl_cons, ih]
    cases rs <;> simp [List.intercalate, List.intersperse]

theorem stringsJoin_eq (elems : List GoString) (sep : GoString) :
    stringsJoin elems sep = sep.intercalate elems := by
  match elems with
  | [] => simp [stringsJoin, List.intercalate]
  | [e] => simp [stringsJoin, List.intercalate]
  | e :: r :: rs => simp only [stringsJoin]; exact foldl_join_eq sep (r :: rs) e

theorem lastIndexByte_spec (c : UInt8) (s : GoString) :
    (lastIndexByte s c = -1 ∧ c ∉ s) ∨
      ∃ pre post, s = pre ++ c :: post ∧ c ∉ post ∧ lastIndexByte s c = (pre.length : Int) := by
  induction s with
  | nil => left; simp [lastIndexByte]
  | cons b rest ih =>
    rcases ih with ⟨h1, h2⟩ | ⟨pre, post, h1, h2, h3⟩
    · by_cases hb : b = c
      · right
        refine ⟨[], rest, by simp [hb], h2, ?_⟩
        simp [lastIndexByte, h1, hb]
      · left
        refine ⟨by simp [lastIndexByte, h1, hb], ?_⟩
        simp [h2, Ne.symm hb]
    · right
      refine ⟨b :: pre, post, by simp [h1], h2, ?_⟩
      have hne : (pre.length : Int) ≠ -1 := by omega
      simp only [lastIndexByte]
      rw [h3]
      simp [hne]

theorem shellName_of_slash (pre post : GoString) (h : SLASH ∉ post) :
    shellName (pre ++ SLASH :: post) = post := by
  rcases lastIndexByte_spec SLASH (pre ++ SLASH :: post) with ⟨_, h2⟩ | ⟨p, q, h1, h2, h3⟩
  · simp at h2
  · have hq : q = post ∧ p = pre := by
      have := List.append_eq_append_iff.mp h1
      rcases this with ⟨a, ha, hb⟩ | ⟨a, ha, hb⟩
      · cases a with
        | nil => simp at ha hb; exact ⟨hb.symm, ha⟩
        | cons x xs =>
          simp at hb
          rcases hb with ⟨rfl, rfl⟩
          simp at h
      · cases a with
        | nil => simp at ha hb; exact ⟨hb, ha.symm⟩
        | cons x xs =>
          simp at hb
          rcases hb with ⟨rfl, rfl⟩
          simp at h2
    obtain ⟨rfl, rfl⟩ := hq
    have hne : (p.length : Int) ≠ -1 := by omega
    simp [shellName, h3, hne]

theorem shellName_of_no_slash (v : GoString) (hv : v ≠ []) (h : SLASH ∉ v) :
    shellName v = v := by
  rcases lastIndexByte_spec SLASH v with ⟨h1, _⟩ | ⟨p, q, h1, _, _⟩
  · simp [shellName, hv, h1]
  · exact absurd (by rw [h1]; simp) h

theorem shellName_nil : shellName [] = str "sh" := by decide

/-! ## Lemmas: lines of a file -/

theorem splitNewlines_ne_nil (s : GoString) : splitNewlines s ≠ [] := by
  induction s with
  | nil => simp [splitNewlines]
  | cons b rest ih =>
    simp only [splitNewlines]
    split
    · simp
    · split <;> simp

theorem splitNewlines_of_not_mem (l : GoString) (h : NL ∉ l) : splitNewlines l = [l] := by
  induction l with
  | nil => simp [splitNewlines]
  | cons b rest ih =>
    have hb : b ≠ NL := fun hc => h (by simp [hc])
    have hr : NL ∉ rest := fun hc => h (by simp [hc])
    simp [splitNewlines, hb, ih hr]

theorem splitNewlines_append (l rest : GoString) (h : NL ∉ l) :
    splitNewlines (l ++ NL :: rest) = l :: splitNewlines rest := by
  induction l with
  | nil => simp [splitNewlines]
  | cons b t ih =>
    have hb : b ≠ NL := fun hc => h (by simp [hc])
    have hr : NL ∉ t := fun hc => h (by simp [hc])
    simp [splitNewlines, hb, ih hr]

theorem not_mem_of_mem_splitNewlines (s : GoString) :
    ∀ l ∈ splitNewlines s, NL ∉ l := by
  induction s with
  | nil => simp [splitNewlines]
  | cons b rest ih =>
    intro l hl
    simp only [splitNewlines] at hl
    split at hl
    · rcases List.mem_cons.mp hl with rfl | h
      · simp
      · exact ih l h
    · rename_i hb
      split at hl
      · rename_i hnil
        exact absurd hnil (splitNewlines_ne_nil rest)
      · rename_i l0 ls hsplit
        rcases List.mem_cons.mp hl with rfl | h
        · have := ih l0 (by rw [hsplit]; simp)
          intro hc
          rcases List.mem_cons.mp hc with h1 | h1
          · exact hb h1.symm
          · exact this h1
        · exact ih l (by rw [hsplit]; simp [h])

theorem splitNewlines_intercalate (ls : List GoString) (hne : ls ≠ [])
    (h : ∀ l ∈ ls, NL ∉ l) : splitNewlines ([NL].intercalate ls) = ls := by
  induction ls with
  | nil => exact absurd rfl hne
  | cons l rest ih =>
    cases rest with
    | nil =>
      simp [List.intercalate]
      exact splitNewlines_of_not_mem l (h l (by simp))
    | cons l2 rest2 =>
      have h1 : [NL].intercalate (l :: l2 :: rest2) = l ++ NL :: [NL].intercalate (l2 :: rest2) := by
        simp [List.intercalate, List.intersperse]
      rw [h1, splitNewlines_append l _ (h l (by simp)), ih (by simp)]
      intro x hx
      exact h x (by simp [List.mem_cons.mp hx])

theorem str_pretty : str "PRETTY_NAME=" = [80, 82, 69, 84, 84, 89, 95, 78, 65, 77, 69, 61] := by
  decide

theorem str_name : str "NAME=" = [78, 65, 77, 69, 61] := by decide

theorem str_version : str "VERSION=" = [86, 69, 82, 83, 73, 79, 78, 61] := by decide

theorem dropCR_cases (l : GoString) : dropCR l = l ∨ l = dropCR l ++ [CR] := by
  unfold dropCR
  split
  · rename_i h
    right
    exact (List.dropLast_append_getLast? CR (by rw [h]; simp)).symm
  · left; rfl

theorem startsWith_dropCR (l pre : GoString) (hl : pre.getLast? ≠ some CR) :
    startsWith (dropCR l) pre = startsWith l pre := by
  rcases dropCR_cases l with h | h
  · rw [h]
  · have hiff : pre <+: dropCR l ↔ pre <+: l := by
      constructor
      · intro hpre
        rw [h]
        exact hpre.trans (List.prefix_append _ _)
      · intro hpre
        rw [h] at hpre
        rcases List.prefix_concat_iff.mp hpre with heq | hpre2
        · rw [heq] at hl
          simp at hl
        · exact hpre2
    unfold startsWith
    by_cases hc : pre <+: l
    · rw [List.isPrefixOf_iff_prefix.mpr hc, List.isPrefixOf_iff_prefix.mpr (hiff.mpr hc)]
    · have h1 : pre.isPrefixOf l = false := by
        rw [Bool.eq_false_iff]; exact fun hx => hc (List.isPrefixOf_iff_prefix.mp hx)
      have h2 : pre.isPrefixOf (dropCR l) = false := by
        rw [Bool.eq_false_iff]
        exact fun hx => hc (hiff.mp (List.isPrefixOf_iff_prefix.mp hx))
      rw [h1, h2]

theorem isKeyLine_dropCR (l : GoString) : isKeyLine (dropCR l) = isKeyLine l := by
  unfold isKeyLine
  rw [startsWith_dropCR l _ (by decide), startsWith_dropCR l _ (by decide),
    startsWith_dropCR l _ (by decide)]

theorem osReleaseStep_of_not_key (s : OSRelease) (l : GoString) (h : isKeyLine l = false) :
    osReleaseStep s l = s := by
  simp only [isKeyLine, Bool.or_eq_false_iff] at h
  simp [osReleaseStep, h.1.1, h.1.2, h.2]

theorem osReleaseStep_nil (s : OSRelease) : osReleaseStep s [] = s :=
  osReleaseStep_of_not_key s [] (by decide)

theorem foldl_scanTokens (L : List GoString) (s : OSRelease) :
    (scanTokens L).foldl osReleaseStep s =
      ((L.takeWhile (fun l => decide (l.length < maxScanTokenSize))).map dropCR).foldl
        osReleaseStep s := by
  induction L generalizing s with
  | nil => simp [scanTokens]
  | cons l ls ih =>
    cases ls with
    | nil =>
      by_cases hl : l = []
      · subst hl
        simp [scanTokens, maxScanTokenSize, dropCR, osReleaseStep_nil]
      · by_cases hs : l.length < maxScanTokenSize
        · simp [scanTokens, hl, hs, List.takeWhile]
        · simp [scanTokens, hl, hs, List.takeWhile]
    | cons l2 rest =>
      by_cases hs : l.length < maxScanTokenSize
      · rw [scanTokens, if_pos hs, List.takeWhile_cons_of_pos (by simpa using hs)]
        · simp only [List.foldl_cons, List.map_cons]
          exact ih _
        · simp
      · rw [scanTokens, if_neg hs, List.takeWhile_cons_of_neg (by simpa using hs)]
        · simp
        · simp

/-- Lines that reach the loop body of `getOSInfo`, up to empty final
pieces: the pieces before the first one of `maxScanTokenSize` bytes or more,
each without its trailing carriage return. -/
theorem getOSInfo_linux (content : GoString) :
    getOSInfo (str "linux") (some content) =
      osReleaseResult
        ((((splitNewlines content).takeWhile
          (fun l => decide (l.length < maxScanTokenSize))).map dropCR).foldl
            osReleaseStep ⟨[], [], []⟩) := by
  simp [getOSInfo, scanLines, foldl_scanTokens]

theorem name_not_pretty (l : GoString) (h : startsWith l (str "NAME=") = true) :
    startsWith l (str "PRETTY_NAME=") = false := by
  rw [str_name] at h
  rw [str_pretty]
  cases l with
  | nil => simp [startsWith, List.isPrefixOf]
  | cons b t =>
    simp only [startsWith, List.isPrefixOf, Bool.and_eq_true, beq_iff_eq] at h
    simp [startsWith, List.isPrefixOf, ← h.1]

theorem version_not_pretty (l : GoString) (h : startsWith l (str "VERSION=") = true) :
    startsWith l (str "PRETTY_NAME=") = false := by
  rw [str_version] at h
  rw [str_pretty]
  cases l with
  | nil => simp [startsWith, List.isPrefixOf]
  | cons b t =>
    simp only [startsWith, List.isPrefixOf, Bool.and_eq_true, beq_iff_eq] at h
    simp [startsWith, List.isPrefixOf, ← h.1]

theorem version_not_name (l : GoString) (h : startsWith l (str "VERSION=") = true) :
    startsWith l (str "NAME=") = false := by
  rw [str_version] at h
  rw [str_name]
  cases l with
  | nil => simp [startsWith, List.isPrefixOf]
  | cons b t =>
    simp only [startsWith, List.isPrefixOf, Bool.and_eq_true, beq_iff_eq] at h
    simp [startsWith, List.isPrefixOf, ← h.1]

theorem foldl_osReleaseStep (lines : List GoString) (s : OSRelease) :
    lines.foldl osReleaseStep s =
      ⟨(lastValue (str "PRETTY_NAME=") lines).getD s.prettyName,
        (lastValue (str "NAME=") lines).getD s.name,
        (lastValue (str "VERSION=") lines).getD s.version⟩ := by
  induction lines generalizing s with
  | nil => simp [lastValue]
  | cons l ls ih =>
    rw [List.foldl_cons, ih]
    have e1 := name_not_pretty l
    have e2 := version_not_pretty l
    have e3 := version_not_name l
    simp only [lastValue, osReleaseStep]
    cases lastValue (str "PRETTY_NAME=") ls <;> cases lastValue (str "NAME=") ls <;>
      cases lastValue (str "VERSION=") ls <;>
      cases hP : startsWith l (str "PRETTY_NAME=") <;>
      cases hN : startsWith l (str "NAME=") <;>
      cases hV : startsWith l (str "VERSION=") <;> simp_all

theorem osReleaseResult_eq_resolved (p n v : Option GoString) :
    osReleaseResult ⟨p.getD [], n.getD [], v.getD []⟩ = resolvedOSIdentity p n v := by
  cases p with
  | none =>
    cases n with
    | none => cases v <;> simp [osReleaseResult, resolvedOSIdentity, claimedOSIdentity, Option.filter]
    | some nv =>
      cases v with
      | none =>
        by_cases hn : nv = [] <;>
          simp [osReleaseResult, resolvedOSIdentity, claimedOSIdentity, Option.filter, hn]
      | some vv =>
        by_cases hn : nv = [] <;> by_cases hv : vv = [] <;>
          simp [osReleaseResult, resolvedOSIdentity, claimedOSIdentity, Option.filter, hn, hv]
  | some pv =>
    by_cases hp : pv = []
    · subst hp
      cases n with
      | none =>
        cases v <;> simp [osReleaseResult, resolvedOSIdentity, claimedOSIdentity, Option.filter]
      | some nv =>
        cases v with
        | none =>
          by_cases hn : nv = [] <;>
            simp [osReleaseResult, resolvedOSIdentity, claimedOSIdentity, Option.filter, hn]
        | some vv =>
          by_cases hn : nv = [] <;> by_cases hv : vv = [] <;>
            simp [osReleaseResult, resolvedOSIdentity, claimedOSIdentity, Option.filter, hn, hv]
    · simp [osReleaseResult, resolvedOSIdentity, claimedOSIdentity, Option.filter, hp]

theorem takeWhile_filter_comm (keep p : GoString → Bool) (L : List GoString)
    (h : ∀ l ∈ L, keep l = false → p l = true) :
    (L.filter keep).takeWhile p = (L.takeWhile p).filter keep := by
  induction L with
  | nil => simp
  | cons l ls ih =>
    have ih2 := ih (fun x hx => h x (by simp [hx]))
    cases hk : keep l
    · have hp := h l (by simp) hk
      simp [List.filter, hk, List.takeWhile, hp, ih2]
    · cases hp : p l <;> simp [List.filter, hk, List.takeWhile, hp, ih2]

theorem foldl_filter_key (X : List GoString) (s : OSRelease) :
    ((X.filter isKeyLine).map dropCR).foldl osReleaseStep s =
      (X.map dropCR).foldl osReleaseStep s := by
  induction X generalizing s with
  | nil => simp
  | cons l ls ih =>
    cases hk : isKeyLine l
    · have h2 : osReleaseStep s (dropCR l) = s :=
        osReleaseStep_of_not_key s _ (by rw [isKeyLine_dropCR]; exact hk)
      simp [List.filter, hk, h2, ih]
    · simp [List.filter, hk, ih]

theorem getOSInfo_linux_filtered (content : GoString)
    (h : ∀ l ∈ splitNewlines content, isKeyLine l = false → l.length < maxScanTokenSize) :
    getOSInfo (str "linux") (some content) =
      osReleaseResult
        (((((splitNewlines content).filter isKeyLine).takeWhile
          (fun l => decide (l.length < maxScanTokenSize))).map dropCR).foldl
            osReleaseStep ⟨[], [], []⟩) := by
  rw [getOSInfo_linux, takeWhile_filter_comm isKeyLine _ _ (by simpa using h), foldl_filter_key]

theorem takeWhile_append_cons (p : GoString → Bool) (pre post : List GoString) (l : GoString)
    (hpre : ∀ x ∈ pre, p x = true) (hl : p l = true) :
    (pre ++ l :: post).takeWhile p = pre ++ l :: post.takeWhile p := by
  induction pre with
  | nil => simp [List.takeWhile, hl]
  | cons a t ih =>
    have ha := hpre a (by simp)
    simp [List.takeWhile, ha, ih (fun x hx => hpre x (by simp [hx]))]

theorem lastValue_none (pre : GoString) (B : List GoString)
    (h : ∀ x ∈ B, startsWith x pre = false) : lastValue pre B = none := by
  induction B with
  | nil => rfl
  | cons b t ih =>
    simp [lastValue, ih (fun x hx => h x (by simp [hx])), h b (by simp)]

theorem lastValue_split (pre : GoString) (A B : List GoString) (l : GoString)
    (hB : ∀ x ∈ B, startsWith x pre = false) (hl : startsWith l pre = true) :
    lastValue pre (A ++ l :: B) = some (stringsTrim (trimLeading l pre) QUOTE) := by
  induction A with
  | nil => simp [lastValue, lastValue_none pre B hB, hl]
  | cons a t ih => simp [lastValue, ih]

theorem stringsTrim_quoted (v : GoString) (hv : v ≠ []) (hhead : v.head? ≠ some QUOTE)
    (hend : v.getLast? ≠ some QUOTE) : stringsTrim (QUOTE :: v ++ [QUOTE]) QUOTE = v := by
  rcases List.eq_nil_or_concat v with h | ⟨init, z, h⟩
  · exact absurd h hv
  · rw [List.concat_eq_append] at h
    subst h
    have hz : (z == QUOTE) = false := by
      rw [beq_eq_false_iff_ne]
      intro hc
      apply hend
      simp [hc]
    have hr : trimRightByte (QUOTE :: (init ++ [z]) ++ [QUOTE]) QUOTE = QUOTE :: (init ++ [z]) := by
      simp [trimRightByte, List.dropWhile, hz]
    rw [stringsTrim, hr]
    cases init with
    | nil => simp [trimLeftByte, List.dropWhile, hz]
    | cons a t =>
      have ha : (a == QUOTE) = false := by
        rw [beq_eq_false_iff_ne]
        intro hc
        apply hhead
        simp [hc]
      simp [trimLeftByte, List.dropWhile, ha]

theorem trimLeading_append (pre rest : GoString) : trimLeading (pre ++ rest) pre = rest := by
  have h : startsWith (pre ++ rest) pre = true := by
    unfold startsWith
    exact List.isPrefixOf_iff_prefix.mpr (List.prefix_append _ _)
  simp [trimLeading, h]

theorem dropCR_prettyLine (v : GoString) : dropCR (prettyLine v) = prettyLine v := by
  have h : (prettyLine v).getLast? = some QUOTE := by
    unfold prettyLine
    exact List.getLast?_concat _
  have hne : QUOTE ≠ CR := by decide
  simp [dropCR, h, hne]

theorem startsWith_prettyLine (v : GoString) :
    startsWith (prettyLine v) (str "PRETTY_NAME=") = true := by
  unfold startsWith prettyLine
  rw [List.append_assoc]
  exact List.isPrefixOf_iff_prefix.mpr (List.prefix_append _ _)

theorem splitNewlines_longLineFile :
    splitNewlines longLineFile =
      [120 :: List.replicate 65535 120, str "NAME=\"A\"", []] := by
  have h1 : str "\nNAME=\"A\"\n" = NL :: str "NAME=\"A\"\n" := by decide
  have h2 : splitNewlines (str "NAME=\"A\"\n") = [str "NAME=\"A\"", []] := by decide
  have hno : NL ∉ (120 :: List.replicate 65535 120 : GoString) := by
    intro hc
    rcases List.mem_cons.mp hc with h | h
    · revert h; decide
    · have := List.eq_of_mem_replicate h
      revert this; decide
  unfold longLineFile
  rw [h1, splitNewlines_append _ _ hno, h2]

theorem isKeyLine_longLine : isKeyLine (120 :: List.replicate 65535 120) = false := by
  decide

theorem deleteOtherLines_preserves_linux (content : GoString)
    (h : ∀ l ∈ splitNewlines content, isKeyLine l = false → l.length < maxScanTokenSize) :
    getOSInfo (str "linux") (some (deleteOtherLines content)) =
      getOSInfo (str "linux") (some content) := by
  rw [getOSInfo_linux_filtered content h, getOSInfo_linux (deleteOtherLines content)]
  by_cases hK : (splitNewlines content).filter isKeyLine = []
  · have hd : deleteOtherLines content = [] := by
      unfold deleteOtherLines
      rw [hK]
      rfl
    rw [hd, hK]
    simp [splitNewlines, maxScanTokenSize, dropCR, osReleaseStep_nil]
  · have hs : splitNewlines (deleteOtherLines content) =
        (splitNewlines content).filter isKeyLine := by
      unfold deleteOtherLines
      apply splitNewlines_intercalate _ hK
      intro l hl
      exact not_mem_of_mem_splitNewlines content l (List.mem_filter.mp hl).1
    rw [hs]

/-! ## Lemmas: placeholder replacement -/

theorem tokenOS_eq : tokenOS = [123, 123, 46, 79, 83, 125, 125] := by decide

theorem tokenArch_eq : tokenArch = [123, 123, 46, 65, 114, 99, 104, 125, 125] := by decide

theorem tokenShell_eq : tokenShell = [123, 123, 46, 83, 104, 101, 108, 108, 125, 125] := by
  decide

theorem replaceScan_skip (old new t rest : GoString) :
    replaceScan old new (t ++ rest) t.length = replaceScan old new rest 0 := by
  induction t with
  | nil => rfl
  | cons b t ih => simpa [replaceScan] using ih

theorem replaceScan_hit (b : UInt8) (t new rest : GoString) :
    replaceScan (b :: t) new ((b :: t) ++ rest) 0 = new ++ replaceScan (b :: t) new rest 0 := by
  have hp : (b :: t).isPrefixOf (b :: (t ++ rest)) = true :=
    List.isPrefixOf_iff_prefix.mpr (List.prefix_append (b :: t) rest)
  rw [List.cons_append, replaceScan, if_pos hp]
  simp [replaceScan_skip]

theorem replaceScan_inert (c : UInt8) (t new s : GoString) (h : c ∉ s) (rest : GoString) :
    replaceScan (c :: t) new (s ++ rest) 0 = s ++ replaceScan (c :: t) new rest 0 := by
  induction s with
  | nil => rfl
  | cons b s ih =>
    have hb : (c == b) = false := by
      rw [beq_eq_false_iff_ne]
      exact fun hc => h (by simp [hc])
    have hs : c ∉ s := fun hc => h (by simp [hc])
    simp [replaceScan, List.isPrefixOf, hb, ih hs]

theorem replaceScan_OS_Arch (new rest : GoString) :
    replaceScan tokenOS new (tokenArch ++ rest) 0 = tokenArch ++ replaceScan tokenOS new rest 0 := by
  rw [tokenOS_eq, tokenArch_eq]
  simp [replaceScan, List.isPrefixOf]

theorem replaceScan_OS_Shell (new rest : GoString) :
    replaceScan tokenOS new (tokenShell ++ rest) 0 =
      tokenShell ++ replaceScan tokenOS new rest 0 := by
  rw [tokenOS_eq, tokenShell_eq]
  simp [replaceScan, List.isPrefixOf]

theorem replaceScan_Arch_Shell (new rest : GoString) :
    replaceScan tokenArch new (tokenShell ++ rest) 0 =
      tokenShell ++ replaceScan tokenArch new rest 0 := by
  rw [tokenArch_eq, tokenShell_eq]
  simp [replaceScan, List.isPrefixOf]

theorem replaceScan_renderParts (tok : GoString) (b : UInt8) (t : GoString)
    (htok : tok = b :: t) (new : GoString) (f g : Part → GoString) (ps : List Part)
    (h : ∀ p ∈ ps, (f p = tok ∧ g p = new) ∨
      (g p = f p ∧ ∀ rest, replaceScan tok new (f p ++ rest) 0 =
        f p ++ replaceScan tok new rest 0)) :
    replaceScan tok new (renderParts f ps) 0 = renderParts g ps := by
  subst htok
  induction ps with
  | nil => rfl
  | cons p ps ih =>
    have ih2 := ih (fun q hq => h q (by simp [hq]))
    rcases h p (by simp) with ⟨h1, h2⟩ | ⟨h1, h2⟩
    · rw [renderParts, renderParts, h1, replaceScan_hit, ih2, h2]
    · rw [renderParts, renderParts, h2, ih2, h1]

theorem replaceScan_text (tok t new : GoString) (htok : tok = LBRACE :: t) (s : GoString)
    (h : LBRACE ∉ s) (rest : GoString) :
    replaceScan tok new (s ++ rest) 0 = s ++ replaceScan tok new rest 0 := by
  subst htok
  exact replaceScan_inert LBRACE t new s h rest

theorem not_mem_of_braceFree (t : GoString) (h : braceFree (.text t) = true) : LBRACE ∉ t := by
  simpa [braceFree] using h

theorem template_eq_parts :
    systemPromptTemplate = renderParts (fill tokenOS tokenArch tokenShell) templateParts := by
  decide!

theorem templateParts_braceFree : ∀ p ∈ templateParts, braceFree p = true := by
  decide!

theorem buildSystemPrompt_of_braceFree (os arch shell : GoString) (ps : List Part)
    (hps : ∀ p ∈ ps, braceFree p = true) (hos : LBRACE ∉ os) (harch : LBRACE ∉ arch) :
    stringsReplaceAll
      (stringsReplaceAll
        (stringsReplaceAll (renderParts (fill tokenOS tokenArch tokenShell) ps) tokenOS os)
        tokenArch arch)
      tokenShell shell = renderParts (fill os arch shell) ps := by
  have h1 : stringsReplaceAll (renderParts (fill tokenOS tokenArch tokenShell) ps) tokenOS os =
      renderParts (fill os tokenArch tokenShell) ps := by
    apply replaceScan_renderParts tokenOS LBRACE tokenOS.tail (by decide)
    intro p hp
    cases p with
    | text t =>
      exact Or.inr ⟨rfl, replaceScan_text _ tokenOS.tail _ (by decide) t (not_mem_of_braceFree t (hps _ hp))⟩
    | os => exact Or.inl ⟨rfl, rfl⟩
    | arch => exact Or.inr ⟨rfl, replaceScan_OS_Arch os⟩
    | shell => exact Or.inr ⟨rfl, replaceScan_OS_Shell os⟩
  have h2 : stringsReplaceAll (renderParts (fill os tokenArch tokenShell) ps) tokenArch arch =
      renderParts (fill os arch tokenShell) ps := by
    apply replaceScan_renderParts tokenArch LBRACE tokenArch.tail (by decide)
    intro p hp
    cases p with
    | text t =>
      exact Or.inr ⟨rfl, replaceScan_text _ tokenArch.tail _ (by decide) t (not_mem_of_braceFree t (hps _ hp))⟩
    | os => exact Or.inr ⟨rfl, replaceScan_text _ tokenArch.tail _ (by decide) os hos⟩
    | arch => exact Or.inl ⟨rfl, rfl⟩
    | shell => exact Or.inr ⟨rfl, replaceScan_Arch_Shell arch⟩
  have h3 : stringsReplaceAll (renderParts (fill os arch tokenShell) ps) tokenShell shell =
      renderParts (fill os arch shell) ps := by
    apply replaceScan_renderParts tokenShell LBRACE tokenShell.tail (by decide)
    intro p hp
    cases p with
    | text t =>
      exact Or.inr ⟨rfl, replaceScan_text _ tokenShell.tail _ (by decide) t (not_mem_of_braceFree t (hps _ hp))⟩
    | os => exact Or.inr ⟨rfl, replaceScan_text _ tokenShell.tail _ (by decide) os hos⟩
    | arch => exact Or.inr ⟨rfl, replaceScan_text _ tokenShell.tail _ (by decide) arch harch⟩
    | shell => exact Or.inl ⟨rfl, rfl⟩
  rw [h1, h2, h3]

/-! ## Lemmas: events of `chat` -/

theorem stderrText_append (a b : List Event) :
    stderrText (a ++ b) = stderrText a ++ stderrText b := by
  induction a with
  | nil => simp [stderrText]
  | cons e es ih => cases e <;> simp [stderrText, ih]

theorem chatCalls_append (a b : List Event) :
    chatCalls (a ++ b) = chatCalls a + chatCalls b := by
  induction a with
  | nil => simp [chatCalls]
  | cons e es ih => cases e <;> simp [chatCalls, ih]; omega

theorem chat_events_quiet (w : World) (baseURL apiKey model question : GoString) :
    stderrText (chat w baseURL apiKey model question).events = [] ∧
      chatCalls (chat w baseURL apiKey model question).events = 0 := by
  unfold chat thinkingEvents
  cases w.stdoutTerminal <;> simp only [] <;>
    (repeat' split) <;> simp [stderrText, chatCalls]

theorem chat_of_non200 (w : World) (baseURL apiKey model question : GoString) (resp : Response)
    (hreq : w.newRequestErr (str "POST") (baseURL ++ str "/chat/completions") = none)
    (hresp : w.roundTrip (chatRequestOf w baseURL apiKey model question) = .ok resp)
    (hs : resp.statusCode ≠ 200) :
    chat w baseURL apiKey model question =
      ⟨thinkingEvents w.stdoutTerminal ++ [.httpDo (chatRequestOf w baseURL apiKey model question)],
        some (.api resp.status resp.body)⟩ := by
  unfold chat
  simp [hreq, hresp, hs]

theorem chat_of_200 (w : World) (baseURL apiKey model question : GoString) (resp : Response)
    (hreq : w.newRequestErr (str "POST") (baseURL ++ str "/chat/completions") = none)
    (hresp : w.roundTrip (chatRequestOf w baseURL apiKey model question) = .ok resp)
    (hs : resp.statusCode = 200) :
    (chat w baseURL apiKey model question).err =
      match resp.readErr with
      | some err => some (.read err)
      | none =>
        match w.unmarshal resp.body with
        | .error err => some (.decode err)
        | .ok _ => none := by
  unfold chat
  simp only [hreq, hresp, hs]
  repeat' split
  all_goals simp_all

theorem chat_of_empty_choices (w : World) (baseURL apiKey model question : GoString)
    (resp : Response) (cr : ChatResponse)
    (hreq : w.newRequestErr (str "POST") (baseURL ++ str "/chat/completions") = none)
    (hresp : w.roundTrip (chatRequestOf w baseURL apiKey model question) = .ok resp)
    (hs : resp.statusCode = 200) (hread : resp.readErr = none)
    (hdec : w.unmarshal resp.body = .ok cr) (hc : cr.choices = []) :
    chat w baseURL apiKey model question =
      ⟨thinkingEvents w.stdoutTerminal ++
        [.httpDo (chatRequestOf w baseURL apiKey model question),
          .stdout (str "No response\n")], none⟩ := by
  unfold chat
  simp [hreq, hresp, hs, hread, hdec, hc]

theorem chat_of_choice (w : World) (baseURL apiKey model question : GoString)
    (resp : Response) (cr : ChatResponse) (c : ChatChoice) (rest : List ChatChoice)
    (hreq : w.newRequestErr (str "POST") (baseURL ++ str "/chat/completions") = none)
    (hresp : w.roundTrip (chatRequestOf w baseURL apiKey model question) = .ok resp)
    (hs : resp.statusCode = 200) (hread : resp.readErr = none)
    (hdec : w.unmarshal resp.body = .ok cr) (hc : cr.choices = c :: rest) :
    chat w baseURL apiKey model question =
      ⟨thinkingEvents w.stdoutTerminal ++
        .httpDo (chatRequestOf w baseURL apiKey model question) ::
          (if w.stdoutTerminal = false then [.stdout (c.content ++ str "\n")]
          else
            .stdout eraseSequence :: .newRenderer ::
              match w.newTermRenderer with
              | .error _ => [.stdout (c.content ++ str "\n")]
              | .ok render =>
                [.render c.content,
                  .stdout ((match render c.content with
                    | .error _ => c.content
                    | .ok out => out) ++ str "\n")]), none⟩ := by
  unfold chat
  simp only [hreq, hresp, hs, hread, hdec, hc]
  cases w.stdoutTerminal
  · simp
  · cases hr : w.newTermRenderer with
    | error e => simp
    | ok render => cases hrr : render c.content <;> simp [hrr]

theorem error_line_ne_usage (t : GoString) : str "Error: " ++ t ≠ usageText := by
  intro h
  have h1 : str "Error: " = [69, 114, 114, 111, 114, 58, 32] := by decide
  have h2 : usageText.head? = some 85 := by decide
  rw [h1] at h
  rw [← h] at h2
  revert h2
  simp

theorem main_exit_of_chat_ok (w : World) (q : GoString)
    (hb : getenv w.envBaseURL ≠ []) (hk : getenv w.envAPIKey ≠ [])
    (hm : getenv w.envModel ≠ [])
    (hq : composeQuestion (!w.stdinCharDevice) w.args w.stdin = some q)
    (herr : (chat w (getenv w.envBaseURL) (getenv w.envAPIKey) (getenv w.envModel) q).err
      = none) :
    (main w).exitCode = 0 := by
  simp [main, hb, hk, hm, hq, herr]

/-! ## Claims -/

/-- C1. In each of the three supported modes the question built by `main`
equals the reference definition, for all argument tokens `A` (what follows
the program name in `os.Args`) and all piped bytes `P`: with a pipe and
`A` non-empty it is `A` joined by single spaces, then a blank line and the
fence holding `P` with the closing fence directly after `P`; with a pipe and
no arguments it is `P` itself; without a pipe and `A` non-empty it is `A`
joined by single spaces. -/
theorem composeQuestion_eq_reference (osArgs : List GoString) (P : GoString) :
    (osArgs.drop 1 ≠ [] →
      composeQuestion true osArgs P =
          some ((str " ").intercalate (osArgs.drop 1) ++ str "\n\n\x60\x60\x60\n" ++ P
            ++ str "\x60\x60\x60") ∧
        composeQuestion true osArgs P = some (referenceQuestion true (osArgs.drop 1) P)) ∧
    (osArgs.drop 1 = [] →
      composeQuestion true osArgs P = some P ∧
        composeQuestion true osArgs P = some (referenceQuestion true (osArgs.drop 1) P)) ∧
    (osArgs.drop 1 ≠ [] →
      composeQuestion false osArgs P = some ((str " ").intercalate (osArgs.drop 1)) ∧
        composeQuestion false osArgs P = some (referenceQuestion false (osArgs.drop 1) P)) := by
  have hlen : osArgs.drop 1 ≠ [] ↔ osArgs.length ≥ 2 := by
    cases osArgs with
    | nil => simp
    | cons a t => cases t <;> simp
  refine ⟨fun h => ?_, fun h => ?_, fun h => ?_⟩
  · have h2 := hlen.mp h
    have h3 : osArgs.tail ≠ [] := by simpa using h
    simp [composeQuestion, referenceQuestion, h2, stringsJoin_eq, h3]
  · have h2 : ¬ osArgs.length ≥ 2 := fun hc => (hlen.mpr hc) h
    have h3 : osArgs.tail = [] := by simpa using h
    simp [composeQuestion, referenceQuestion, h2, h3]
  · have h2 := hlen.mp h
    simp [composeQuestion, referenceQuestion, h2, stringsJoin_eq]

/-- Witness of C1: `cat error.log | ask why this` with the piped bytes
`boom\n`, and the two other modes on the same arguments. -/
theorem composeQuestion_eq_reference_witness :
    composeQuestion true [str "ask", str "why", str "this"] (str "boom\n") =
        some (str "why this\n\n\x60\x60\x60\nboom\n\x60\x60\x60") ∧
      composeQuestion true [str "ask"] (str "boom\n") = some (str "boom\n") ∧
      composeQuestion false [str "ask", str "why", str "this"] (str "boom\n") =
        some (str "why this") := by
  have h := composeQuestion_eq_reference [str "ask", str "why", str "this"] (str "boom\n")
  have h0 := composeQuestion_eq_reference [str "ask"] (str "boom\n")
  refine ⟨?_, (h0.2.1 (by decide)).1, ?_⟩
  · rw [(h.1 (by decide)).1]; decide
  · rw [(h.2.2 (by decide)).1]; decide

/-- C2. With the three required variables set, a run of `main` ends with
the usage error (the usage text on standard error, exit status 1) exactly
when standard input is not a pipe and there are no argument tokens; in that
case `chat` is not called and no HTTP request is issued, and in every other
case `chat` is called exactly once. -/
theorem main_usage_iff (w : World) (hb : getenv w.envBaseURL ≠ [])
    (hk : getenv w.envAPIKey ≠ []) (hm : getenv w.envModel ≠ []) :
    ((stderrText (main w).events = usageText ∧ (main w).exitCode = 1) ↔
        (w.stdinCharDevice = true ∧ w.args.drop 1 = [])) ∧
      ((w.stdinCharDevice = true ∧ w.args.drop 1 = []) →
        chatCalls (main w).events = 0 ∧ httpRequests (main w).events = 0) ∧
      (¬ (w.stdinCharDevice = true ∧ w.args.drop 1 = []) →
        chatCalls (main w).events = 1) := by
  have hlen : w.args.drop 1 = [] ↔ ¬ w.args.length ≥ 2 := by
    cases w.args with
    | nil => simp
    | cons a t => cases t <;> simp
  have hnone : composeQuestion (!w.stdinCharDevice) w.args w.stdin = none ↔
      (w.stdinCharDevice = true ∧ w.args.drop 1 = []) := by
    rw [hlen]
    cases w.stdinCharDevice <;> by_cases h2 : w.args.length ≥ 2 <;>
      simp [composeQuestion, h2]
  cases hq : composeQuestion (!w.stdinCharDevice) w.args w.stdin with
  | none =>
    have hu := hnone.mp hq
    have hmain : main w = ⟨[.stderr usageText], 1⟩ := by
      simp [main, hb, hk, hm, hq]
    rw [hmain]
    simp [stderrText, chatCalls, httpRequests, hu]
  | some q =>
    have hu : ¬ (w.stdinCharDevice = true ∧ w.args.drop 1 = []) := by
      intro hc
      rw [hnone.mpr hc] at hq
      cases hq
    have hquiet := chat_events_quiet w (getenv w.envBaseURL) (getenv w.envAPIKey)
      (getenv w.envModel) q
    cases he : (chat w (getenv w.envBaseURL) (getenv w.envAPIKey) (getenv w.envModel) q).err with
    | none =>
      have hmain : main w = ⟨.chatCall (getenv w.envBaseURL) (getenv w.envAPIKey)
          (getenv w.envModel) q ::
          (chat w (getenv w.envBaseURL) (getenv w.envAPIKey) (getenv w.envModel) q).events,
          0⟩ := by
        simp [main, hb, hk, hm, hq, he]
      rw [hmain]
      refine ⟨⟨fun h => absurd h.2 (by simp), fun h => absurd h hu⟩, fun h => absurd h hu,
        fun _ => ?_⟩
      simp [chatCalls, hquiet.2]
    | some e =>
      have hmain : main w = ⟨.chatCall (getenv w.envBaseURL) (getenv w.envAPIKey)
          (getenv w.envModel) q ::
          ((chat w (getenv w.envBaseURL) (getenv w.envAPIKey) (getenv w.envModel) q).events ++
            [.stderr (str "Error: " ++ (e.text ++ str "\n"))]), 1⟩ := by
        simp [main, hb, hk, hm, hq, he]
      rw [hmain]
      refine ⟨⟨fun h => ?_, fun h => absurd h hu⟩, fun h => absurd h hu, fun _ => ?_⟩
      · exfalso
        have h1 := h.1
        simp [stderrText, stderrText_append, hquiet.1] at h1
        exact error_line_ne_usage _ h1
      · simp [chatCalls, chatCalls_append, hquiet.2]

/-- Witness of C2: `ask` typed alone on a terminal, with the three
variables set, calls `chat` zero times and issues no request. -/
theorem main_usage_iff_witness :
    getenv bareWorld.envBaseURL ≠ [] ∧ getenv bareWorld.envAPIKey ≠ [] ∧
      getenv bareWorld.envModel ≠ [] ∧
      chatCalls (main bareWorld).events = 0 ∧ httpRequests (main bareWorld).events = 0 :=
  ⟨by decide, by decide, by decide,
    (main_usage_iff bareWorld (by decide) (by decide) (by decide)).2.1 ⟨rfl, rfl⟩⟩

/-- C9. For every value `s` of the variable `SHELL`: the shell name is
`sh` when `s` is unset or empty; otherwise it is what follows the final `/`
of `s` (so `s` is some prefix, a `/`, and the shell name), and `s` itself
when `s` has no `/`; in every case the shell name contains no `/`. -/
theorem shellName_spec (s : Option GoString) :
    ((s = none ∨ s = some []) → shellName (getenv s) = str "sh") ∧
      (∀ v, s = some v → v ≠ [] →
        (SLASH ∈ v → ∃ pre, v = pre ++ SLASH :: shellName (getenv s)) ∧
          (SLASH ∉ v → shellName (getenv s) = v)) ∧
      SLASH ∉ shellName (getenv s) := by
  have hsh : SLASH ∉ str "sh" := by decide
  have hgen : ∀ v : GoString, v ≠ [] →
      (SLASH ∈ v → ∃ pre, v = pre ++ SLASH :: shellName v) ∧
        (SLASH ∉ v → shellName v = v) ∧ SLASH ∉ shellName v := by
    intro v hv
    rcases lastIndexByte_spec SLASH v with ⟨_, h2⟩ | ⟨p, q, h1, h2, _⟩
    · have h3 := shellName_of_no_slash v hv h2
      exact ⟨fun h => absurd h h2, fun _ => h3, by rw [h3]; exact h2⟩
    · have h3 : shellName v = q := by rw [h1]; exact shellName_of_slash p q h2
      refine ⟨fun _ => ⟨p, by rw [h3]; exact h1⟩, fun h => absurd (by rw [h1]; simp) h, ?_⟩
      rw [h3]; exact h2
  refine ⟨?_, ?_, ?_⟩
  · rintro (rfl | rfl) <;> exact shellName_nil
  · rintro v rfl hv
    exact ⟨(hgen v hv).1, (hgen v hv).2.1⟩
  · cases s with
    | none => simp only [getenv, Option.getD_none, shellName_nil]; exact hsh
    | some v =>
      by_cases hv : v = []
      · subst hv
        simp only [getenv, Option.getD_some, shellName_nil]; exact hsh
      · exact (hgen v hv).2.2

/-- Witness of C9: `SHELL=/bin/zsh` gives the shell name `zsh`, which has
no `/`. -/
theorem shellName_spec_witness :
    shellName (getenv (some (str "/bin/zsh"))) = str "zsh" ∧
      SLASH ∉ shellName (getenv (some (str "/bin/zsh"))) := by
  have h := shellName_spec (some (str "/bin/zsh"))
  obtain ⟨pre, hpre⟩ := (h.2.1 (str "/bin/zsh") rfl (by decide)).1 (by decide)
  refine ⟨?_, h.2.2⟩
  decide

/-- C6, counterexample. The status `201 Created` is a 2xx success status,
and `chat` reports the response as an API error. -/
theorem chat_201_reports_api_error :
    isSuccess2xx 201 = true ∧
      (chat createdWorld (str "http://localhost:8080/v1") (str "key") (str "m") (str "hi")).err
        = some (.api (str "201 Created") (str "\x7b\"choices\":[]\x7d")) := by
  refine ⟨by decide, ?_⟩
  rw [chat_of_non200 createdWorld _ _ _ _ ⟨201, str "201 Created",
    str "\x7b\"choices\":[]\x7d", none⟩ rfl rfl (by decide)]

/-- C6, amended. For every response received by `chat`: when the status
code is not 200 the call fails with the API error that carries the response
status and the raw body, whose text is `API error: <status> - <body>`; when
the status code is 200 the call reports no API error at all and its result
is decided by reading and decoding the body. -/
theorem chat_api_error_iff (w : World) (baseURL apiKey model question : GoString)
    (resp : Response)
    (hreq : w.newRequestErr (str "POST") (baseURL ++ str "/chat/completions") = none)
    (hresp : w.roundTrip (chatRequestOf w baseURL apiKey model question) = .ok resp) :
    ((chat w baseURL apiKey model question).err = some (.api resp.status resp.body) ↔
        resp.statusCode ≠ 200) ∧
      ((∃ s b, (chat w baseURL apiKey model question).err = some (.api s b)) ↔
        resp.statusCode ≠ 200) ∧
      (ChatError.api resp.status resp.body).text =
        str "API error: " ++ resp.status ++ str " - " ++ resp.body ∧
      (resp.statusCode = 200 →
        (chat w baseURL apiKey model question).err =
          match resp.readErr with
          | some err => some (.read err)
          | none =>
            match w.unmarshal resp.body with
            | .error err => some (.decode err)
            | .ok _ => none) := by
  have h200 : resp.statusCode = 200 →
      ∀ s b, (chat w baseURL apiKey model question).err ≠ some (.api s b) := by
    intro hs s b
    rw [chat_of_200 w _ _ _ _ resp hreq hresp hs]
    repeat' split
    all_goals simp
  have hne : resp.statusCode ≠ 200 →
      (chat w baseURL apiKey model question).err = some (.api resp.status resp.body) := by
    intro hs
    rw [chat_of_non200 w _ _ _ _ resp hreq hresp hs]
  refine ⟨⟨fun h hs => h200 hs _ _ h, hne⟩, ⟨?_, fun hs => ⟨_, _, hne hs⟩⟩, rfl,
    chat_of_200 w _ _ _ _ resp hreq hresp⟩
  rintro ⟨s, b, h⟩ hs
  exact h200 hs s b h

/-- Witness of C6: a 429 response with the body `rate limited` makes
`chat` fail with the API error carrying both. -/
theorem chat_api_error_iff_witness :
    (chat rateLimitedWorld (str "http://localhost:8080/v1") (str "key") (str "m")
        (str "hi")).err
      = some (.api (str "429 Too Many Requests") (str "rate limited")) ∧
    (ChatError.api (str "429 Too Many Requests") (str "rate limited")).text =
      str "API error: 429 Too Many Requests - rate limited" :=
  ⟨(chat_api_error_iff rateLimitedWorld (str "http://localhost:8080/v1") (str "key") (str "m")
      (str "hi") ⟨429, str "429 Too Many Requests", str "rate limited", none⟩ rfl rfl).1.mpr
      (by decide), by decide⟩

/-- C7. For every response with status 200 whose body is read and decoded:
when the decoded `choices` is empty, `chat` returns no error, what it does
after the request is exactly to print the line `No response`, and the
renderer is never used; when there is at least one choice, `chat` returns
no error and what it presents is the content of the first choice,
unmodified: printed followed by a newline when standard output is not a
terminal, and otherwise handed as it is to the renderer, whose output is
printed (the content itself when the renderer fails). In both cases a run
of `main` that made this call exits with status 0. -/
theorem chat_choices_spec (w : World) (baseURL apiKey model question : GoString)
    (resp : Response) (cr : ChatResponse)
    (hreq : w.newRequestErr (str "POST") (baseURL ++ str "/chat/completions") = none)
    (hresp : w.roundTrip (chatRequestOf w baseURL apiKey model question) = .ok resp)
    (hs : resp.statusCode = 200) (hread : resp.readErr = none)
    (hdec : w.unmarshal resp.body = .ok cr) :
    (cr.choices = [] →
        (chat w baseURL apiKey model question).err = none ∧
        (chat w baseURL apiKey model question).events =
          thinkingEvents w.stdoutTerminal ++
            [.httpDo (chatRequestOf w baseURL apiKey model question),
              .stdout (str "No response\n")] ∧
        rendererUses (chat w baseURL apiKey model question).events = 0) ∧
      (∀ c rest, cr.choices = c :: rest →
        (chat w baseURL apiKey model question).err = none ∧
        (chat w baseURL apiKey model question).events =
          thinkingEvents w.stdoutTerminal ++
            .httpDo (chatRequestOf w baseURL apiKey model question) ::
              (if w.stdoutTerminal = false then [.stdout (c.content ++ str "\n")]
              else
                .stdout eraseSequence :: .newRenderer ::
                  match w.newTermRenderer with
                  | .error _ => [.stdout (c.content ++ str "\n")]
                  | .ok render =>
                    [.render c.content,
                      .stdout ((match render c.content with
                        | .error _ => c.content
                        | .ok out => out) ++ str "\n")])) ∧
      (baseURL = getenv w.envBaseURL → apiKey = getenv w.envAPIKey →
        model = getenv w.envModel → baseURL ≠ [] → apiKey ≠ [] → model ≠ [] →
        composeQuestion (!w.stdinCharDevice) w.args w.stdin = some question →
        (main w).exitCode = 0) := by
  have herr : (chat w baseURL apiKey model question).err = none := by
    rw [chat_of_200 w _ _ _ _ resp hreq hresp hs, hread, hdec]
  refine ⟨fun hc => ⟨herr, ?_, ?_⟩, fun c rest hc => ⟨herr, ?_⟩, ?_⟩
  · rw [chat_of_empty_choices w _ _ _ _ resp cr hreq hresp hs hread hdec hc]
  · rw [chat_of_empty_choices w _ _ _ _ resp cr hreq hresp hs hread hdec hc]
    cases w.stdoutTerminal <;> simp [thinkingEvents, rendererUses]
  · rw [chat_of_choice w _ _ _ _ resp cr c rest hreq hresp hs hread hdec hc]
  · rintro rfl rfl rfl hb hk hm hq
    exact main_exit_of_chat_ok w question hb hk hm hq herr

/-- Witness of C7: with standard output redirected and the single choice
`hello`, the run `ask hi` returns no error, prints `hello` and a newline
after the request, and exits with status 0. -/
theorem chat_choices_spec_witness :
    (chat redirectedWorld (str "http://localhost:8080/v1") (str "key") (str "m")
        (str "hi")).err = none ∧
      stdoutWrites (chat redirectedWorld (str "http://localhost:8080/v1") (str "key") (str "m")
        (str "hi")).events = [str "hello\n"] ∧
      (main redirectedWorld).exitCode = 0 := by
  have h := chat_choices_spec redirectedWorld (str "http://localhost:8080/v1") (str "key")
    (str "m") (str "hi") ⟨200, str "200 OK", str "body", none⟩ ⟨[⟨str "hello"⟩]⟩
    rfl rfl rfl rfl rfl
  have h2 := h.2.1 ⟨str "hello"⟩ [] rfl
  refine ⟨h2.1, ?_, h.2.2 rfl rfl rfl (by decide) (by decide) (by decide) (by decide)⟩
  rw [h2.2]
  decide

/-- C8, the failing run. On a terminal, when the server answers 200 with an
empty `choices`, the writes of `chat` to standard output are `Thinking...`
followed directly by the line `No response`: the erase sequence is not
written between the indicator and the final output. -/
theorem chat_no_response_keeps_indicator :
    stdoutWrites (chat noChoiceWorld (str "http://localhost:8080/v1") (str "key") (str "m")
        (str "hi")).events = [str "Thinking...", str "No response\n"] ∧
      eraseSequence ∉ stdoutWrites (chat noChoiceWorld (str "http://localhost:8080/v1")
        (str "key") (str "m") (str "hi")).events := by
  rw [chat_of_empty_choices noChoiceWorld _ _ _ _
    ⟨200, str "200 OK", str "\x7b\"choices\":[]\x7d", none⟩ ⟨[]⟩ rfl rfl rfl rfl rfl rfl]
  decide

/-- C3, counterexample. In the file with the lines `NAME="Ubuntu"` and
`VERSION=""` both keys are present, so the resolution order of the claim
gives `Ubuntu` followed by a space; `getOSInfo` returns `Ubuntu`. -/
theorem getOSInfo_empty_version_differs :
    getOSInfo (str "linux") (some emptyVersionFile) = str "Ubuntu" ∧
      claimedOSIdentity (lastValue (str "PRETTY_NAME=") (textLines emptyVersionFile))
        (lastValue (str "NAME=") (textLines emptyVersionFile))
        (lastValue (str "VERSION=") (textLines emptyVersionFile)) = str "Ubuntu " ∧
      str "Ubuntu" ≠ str "Ubuntu " := by
  decide

/-- C3, amended. For every OS-release file whose lines are all shorter
than 65536 bytes, with `p`, `n`, `v` the quote-stripped values of the last
`PRETTY_NAME=`, `NAME=` and `VERSION=` lines, `getOSInfo` on linux returns
`p` if `PRETTY_NAME` is present and non-empty; otherwise `n`, a space and
`v` if `NAME` and `VERSION` are both present and non-empty; otherwise `n` if
`NAME` is present and non-empty; otherwise `linux`. -/
theorem getOSInfo_resolution (content : GoString)
    (hshort : ∀ l ∈ splitNewlines content, l.length < maxScanTokenSize) :
    getOSInfo (str "linux") (some content) =
      resolvedOSIdentity (lastValue (str "PRETTY_NAME=") (textLines content))
        (lastValue (str "NAME=") (textLines content))
        (lastValue (str "VERSION=") (textLines content)) := by
  have htw : (splitNewlines content).takeWhile
      (fun l => decide (l.length < maxScanTokenSize)) = splitNewlines content :=
    List.takeWhile_eq_self_iff.mpr (by simpa using hshort)
  rw [getOSInfo_linux, htw, foldl_osReleaseStep]
  exact osReleaseResult_eq_resolved _ _ _

/-- Witness of C3: the file with `NAME="Ubuntu"` and an empty `VERSION`
resolves to `Ubuntu`. -/
theorem getOSInfo_resolution_witness :
    (∀ l ∈ splitNewlines emptyVersionFile, l.length < maxScanTokenSize) ∧
      getOSInfo (str "linux") (some emptyVersionFile) =
        resolvedOSIdentity (lastValue (str "PRETTY_NAME=") (textLines emptyVersionFile))
          (lastValue (str "NAME=") (textLines emptyVersionFile))
          (lastValue (str "VERSION=") (textLines emptyVersionFile)) ∧
      resolvedOSIdentity (lastValue (str "PRETTY_NAME=") (textLines emptyVersionFile))
          (lastValue (str "NAME=") (textLines emptyVersionFile))
          (lastValue (str "VERSION=") (textLines emptyVersionFile)) = str "Ubuntu" :=
  ⟨by decide, getOSInfo_resolution emptyVersionFile (by decide), by decide⟩

/-- C4, counterexample. The file contains the line
`PRETTY_NAME="Test OS 1.0"` and a later line `PRETTY_NAME="Other"`;
`getOSInfo` returns `Other`. -/
theorem getOSInfo_second_pretty_name_wins :
    prettyLine (str "Test OS 1.0") ∈ splitNewlines twoPrettyFile ∧
      getOSInfo (str "linux") (some twoPrettyFile) = str "Other" ∧
      str "Other" ≠ str "Test OS 1.0" := by
  decide

/-- C4, amended. When the last line of the file that starts with
`PRETTY_NAME=` is `PRETTY_NAME="v"`, with `v` non-empty and neither starting
nor ending with a double quote, and no line up to and including it has
65536 bytes or more, `getOSInfo` on linux returns exactly `v`, whatever the
`NAME`, `VERSION` and other lines are. -/
theorem getOSInfo_pretty_name (content : GoString) (pre post : List GoString) (v : GoString)
    (hsplit : splitNewlines content = pre ++ prettyLine v :: post)
    (hlast : ∀ l ∈ post, startsWith l (str "PRETTY_NAME=") = false)
    (hv : v ≠ []) (hhead : v.head? ≠ some QUOTE) (hend : v.getLast? ≠ some QUOTE)
    (hshort : ∀ l ∈ pre, l.length < maxScanTokenSize)
    (hline : (prettyLine v).length < maxScanTokenSize) :
    getOSInfo (str "linux") (some content) = v := by
  rw [getOSInfo_linux, hsplit,
    takeWhile_append_cons _ pre post _ (by simpa using hshort) (by simpa using hline),
    foldl_osReleaseStep, List.map_append, List.map_cons, dropCR_prettyLine]
  have hB : ∀ x ∈ (post.takeWhile (fun l => decide (l.length < maxScanTokenSize))).map dropCR,
      startsWith x (str "PRETTY_NAME=") = false := by
    intro x hx
    obtain ⟨y, hy, rfl⟩ := List.mem_map.mp hx
    rw [startsWith_dropCR y _ (by decide)]
    exact hlast y ((List.takeWhile_sublist _).subset hy)
  rw [lastValue_split _ _ _ _ hB (startsWith_prettyLine v)]
  have hval : stringsTrim (trimLeading (prettyLine v) (str "PRETTY_NAME=")) QUOTE = v := by
    have : prettyLine v = str "PRETTY_NAME=" ++ (QUOTE :: v ++ [QUOTE]) := by
      simp [prettyLine]
    rw [this, trimLeading_append]
    exact stringsTrim_quoted v hv hhead hend
  simp [hval, osReleaseResult, hv]

/-- Witness of C4: `PRETTY_NAME="Test OS 1.0"` between a `NAME` and a
`VERSION` line yields `Test OS 1.0`. -/
theorem getOSInfo_pretty_name_witness :
    getOSInfo (str "linux") (some prettyFile) = str "Test OS 1.0" :=
  getOSInfo_pretty_name prettyFile [str "NAME=\"x\""] [str "VERSION=\"2\"", str "ID=test", []]
    (str "Test OS 1.0") (by decide) (by decide) (by decide) (by decide) (by decide) (by decide)
    (by decide)

/-- C10, counterexample. The file `longLineFile` has a first line of 65536
bytes `x`, which starts with none of the three prefixes, and then the line
`NAME="A"`. On the file `getOSInfo` returns `linux`, because the scanner
stops at the over-long line; with that line deleted it returns `A`. -/
theorem getOSInfo_long_line_deleted_differs :
    (120 :: List.replicate 65535 120) ∈ splitNewlines longLineFile ∧
      isKeyLine (120 :: List.replicate 65535 120) = false ∧
      getOSInfo (str "linux") (some longLineFile) = str "linux" ∧
      getOSInfo (str "linux") (some (deleteOtherLines longLineFile)) = str "A" ∧
      str "linux" ≠ str "A" := by
  have hlen : ¬ (120 :: List.replicate 65535 (120 : UInt8)).length < maxScanTokenSize := by
    rw [List.length_cons, List.length_replicate]
    decide
  have hstop : ¬ (fun l : GoString => decide (l.length < maxScanTokenSize))
      (120 :: List.replicate 65535 120) = true := fun hc => hlen (of_decide_eq_true hc)
  have hdrop : ¬ isKeyLine (120 :: List.replicate 65535 120) = true := by
    rw [isKeyLine_longLine]
    decide
  refine ⟨?_, isKeyLine_longLine, ?_, ?_, by decide⟩
  · rw [splitNewlines_longLineFile]
    exact List.mem_cons_self _ _
  · have htw : List.takeWhile (fun l : GoString => decide (l.length < maxScanTokenSize))
        [120 :: List.replicate 65535 120, str "NAME=\"A\"", []] = [] :=
      List.takeWhile_cons_of_neg hstop
    rw [getOSInfo_linux, splitNewlines_longLineFile, htw]
    decide
  · have hd : deleteOtherLines longLineFile = str "NAME=\"A\"" := by
      unfold deleteOtherLines
      rw [splitNewlines_longLineFile, List.filter_cons_of_neg hdrop]
      decide
    rw [hd]
    decide

/-- C10, amended. For every OS-release file content, deleting every line
that starts with none of the exact prefixes `PRETTY_NAME=`, `NAME=` and
`VERSION=` leaves the result of `getOSInfo` unchanged, provided each deleted
line is shorter than 65536 bytes. -/
theorem getOSInfo_deleteOtherLines (goos content : GoString)
    (h : ∀ l ∈ splitNewlines content, isKeyLine l = false → l.length < maxScanTokenSize) :
    getOSInfo goos (some (deleteOtherLines content)) = getOSInfo goos (some content) := by
  by_cases hg : goos = str "linux"
  · subst hg
    exact deleteOtherLines_preserves_linux content h
  · simp [getOSInfo, hg]

/-- Witness of C10: deleting the line `ID=test` and the empty final piece
of `prettyFile` leaves the OS identity `Test OS 1.0`. -/
theorem getOSInfo_deleteOtherLines_witness :
    deleteOtherLines prettyFile =
        str "NAME=\"x\"\nPRETTY_NAME=\"Test OS 1.0\"\nVERSION=\"2\"" ∧
      getOSInfo (str "linux") (some (deleteOtherLines prettyFile)) =
        getOSInfo (str "linux") (some prettyFile) ∧
      getOSInfo (str "linux") (some prettyFile) = str "Test OS 1.0" :=
  ⟨by decide, getOSInfo_deleteOtherLines (str "linux") prettyFile (by decide), by decide⟩

/-- C5, counterexample. An OS-release file may give the OS identity
`{{.Shell}}`; with the architecture `amd64` and the shell `zsh` the prompt
built by `chat` is not the template with the OS positions carrying that
identity: the third replacement rewrites them, and they carry `zsh`. -/
theorem buildSystemPrompt_rewrites_os_value :
    getOSInfo (str "linux") (some (str "PRETTY_NAME=\"\x7b\x7b.Shell\x7d\x7d\"\n")) = tokenShell ∧
      buildSystemPrompt tokenShell (str "amd64") (str "zsh") ≠
        expectedPrompt tokenShell (str "amd64") (str "zsh") ∧
      buildSystemPrompt tokenShell (str "amd64") (str "zsh") =
        expectedPrompt (str "zsh") (str "amd64") (str "zsh") := by
  refine ⟨by decide, ?_, ?_⟩
  · decide!
  · decide!

/-- C5, amended. For every EnvironmentInfo whose OS identity and
architecture contain no `{` byte, the system prompt built in `chat` is the
template with every placeholder position carrying the corresponding value
(OS identity, architecture, shell name) and the text between placeholders
unchanged. The template is the concatenation of `templateParts` with the
placeholders written out, none of its text segments contains a `{`, and the
prompt is the content of the system message of the request. -/
theorem buildSystemPrompt_eq_expected (os arch shell : GoString)
    (hos : LBRACE ∉ os) (harch : LBRACE ∉ arch) :
    systemPromptTemplate = renderParts (fill tokenOS tokenArch tokenShell) templateParts ∧
      (∀ p ∈ templateParts, braceFree p = true) ∧
      buildSystemPrompt os arch shell = expectedPrompt os arch shell ∧
      (∀ (w : World) (baseURL apiKey model question : GoString),
        (chatRequestOf w baseURL apiKey model question).body.messages.head? =
          some ⟨str "system", buildSystemPrompt (getOSInfo w.goos w.osRelease) w.goarch
            (shellName (getenv w.envShell))⟩) := by
  refine ⟨template_eq_parts, templateParts_braceFree, ?_, fun _ _ _ _ _ => rfl⟩
  unfold buildSystemPrompt expectedPrompt
  rw [template_eq_parts]
  exact buildSystemPrompt_of_braceFree os arch shell templateParts templateParts_braceFree
    hos harch

/-- Witness of C5: the OS identity `Test OS 1.0`, the architecture `amd64`
and the shell `zsh`. -/
theorem buildSystemPrompt_eq_expected_witness :
    LBRACE ∉ str "Test OS 1.0" ∧ LBRACE ∉ str "amd64" ∧
      buildSystemPrompt (str "Test OS 1.0") (str "amd64") (str "zsh") =
        expectedPrompt (str "Test OS 1.0") (str "amd64") (str "zsh") :=
  ⟨by decide, by decide,
    (buildSystemPrompt_eq_expected (str "Test OS 1.0") (str "amd64") (str "zsh")
      (by decide) (by decide)).2.2.1⟩

end AiAsk
